import Mathlib

/-!
Verification development for the Lantern performance-simulation engine of the
lighthouse repository.

The repository slice under examination ships the tests and consumers of the
simulation core; the Simulator itself and the quiet-period scanner
(computed/metrics/interactive.js) are not part of the shipped sources, so those
two components are modelled from the specification document, pinned where the
specification is silent by the expectations of the shipped test file
lighthouse-core/test/computed/metrics/interactive-test.js.  The audit
lighthouse-core/audits/lazy-third-party.js is shipped and is embedded directly
from its source.
-/

namespace Lantern

/-! ## Simulator model

Modelled from the spec: the Simulator (section 4.3) and the estimate
strategies (section 4.4) are not under the shipped sources.  Following the
design note of section 9, the Simulator is one pure function
simulate(graph, profile, strategy) over an immutable node graph.  CPU
serialization is encoded as dependency edges by the graph builder
(section 4.2: tasks are totally ordered among themselves), so the schedule is
dependency driven: a node starts when all of its dependencies have finished
and runs for a duration determined by the throttling profile and the
resource-state assumptions of the strategy.  Connection warm/cold state is the
only difference between the two strategies (section 4.4): the optimistic
strategy pays a connection-establishment penalty only on the first use of a
host, the pessimistic strategy pays it on every request. -/

/-- Payload of a graph node: a network request (host and transfer size in
kilobytes) or a chunk of CPU work (observed self time in milliseconds). -/
inductive NodeKind
  | network (host : String) (transferKb : ℚ)
  | cpu (selfTimeMs : ℚ)
deriving DecidableEq

/-- A node of the dependency graph.  Dependencies are indices of earlier
nodes in the topologically ordered node list. -/
structure SimNode where
  kind : NodeKind
  deps : List Nat
deriving DecidableEq

/-- Throttling profile, section 6 of the spec. -/
structure ThrottlingProfile where
  rttMs : ℚ
  throughputKbps : ℚ
  cpuSlowdownMultiplier : ℚ
deriving DecidableEq

/-- The two estimate strategies of section 4.4. -/
inductive EstimateStrategy
  | optimistic
  | pessimistic
deriving DecidableEq

/-- Modelled from the spec: number of round trips needed for a fresh TCP plus
TLS negotiation (section 4.4, pessimistic assumptions). -/
def handshakeRtts : ℚ := 2

/-- Connection-establishment time for one request.  The pessimistic strategy
assumes every connection requires fresh negotiation; the optimistic strategy
adds no penalty beyond the first use of a host (section 4.4). -/
def connectionSetupMs (p : ThrottlingProfile) (s : EstimateStrategy)
    (seenHosts : List String) (host : String) : ℚ :=
  match s with
  | .pessimistic => handshakeRtts * p.rttMs
  | .optimistic => if host ∈ seenHosts then 0 else handshakeRtts * p.rttMs

/-- Duration of one node under a profile and strategy (section 4.3 timing
model): network duration is connection setup plus one RTT plus transfer time
under the throughput cap; CPU duration scales the observed self time by the
CPU-slowdown multiplier. -/
def nodeDuration (p : ThrottlingProfile) (s : EstimateStrategy)
    (seenHosts : List String) (k : NodeKind) : ℚ :=
  match k with
  | .network host kb =>
      connectionSetupMs p s seenHosts host + p.rttMs + kb * 8 * 1000 / p.throughputKbps
  | .cpu selfMs => selfMs * p.cpuSlowdownMultiplier

/-- Per-run mutable simulation state (section 5): the start/end times fixed so
far, in node order, and the hosts contacted so far. -/
structure SimState where
  timings : List (ℚ × ℚ)
  hosts : List String
deriving DecidableEq

/-- End time of dependency d recorded in a timing list (0 when absent). -/
def depEnd (timings : List (ℚ × ℚ)) (d : Nat) : ℚ :=
  (timings.getD d (0, 0)).2

/-- Latest end time among a list of dependencies. -/
def maxDepEnd (timings : List (ℚ × ℚ)) (deps : List Nat) : ℚ :=
  deps.foldr (fun d acc => max (depEnd timings d) acc) 0

/-- One discrete-event step: schedule the next node of the topological order.
It starts once all its dependencies have finished and runs for its computed
duration; contacting a host records it for later warm reuse. -/
def simStep (p : ThrottlingProfile) (s : EstimateStrategy)
    (st : SimState) (n : SimNode) : SimState :=
  let start := maxDepEnd st.timings n.deps
  let dur := nodeDuration p s st.hosts n.kind
  { timings := st.timings ++ [(start, start + dur)]
    hosts :=
      match n.kind with
      | .network h _ => st.hosts ++ [h]
      | .cpu _ => st.hosts }

/-- Result of one simulation run (section 3): per-node start/end times plus
the total elapsed time, the maximum end time across all nodes. -/
structure SimulationResult where
  nodeTimings : List (ℚ × ℚ)
  totalTime : ℚ
deriving DecidableEq

/-- Modelled from the spec: the Simulator entry point (sections 4.3 and 9),
a pure function of the shared graph, the throttling profile and the estimate
strategy. -/
def simulate (g : List SimNode) (p : ThrottlingProfile)
    (s : EstimateStrategy) : SimulationResult :=
  let fin := g.foldl (simStep p s) ⟨[], []⟩
  ⟨fin.timings, (fin.timings.map Prod.snd).foldr max 0⟩

/-- Acyclicity in topological form (section 3): every dependency of a node
points to a strictly earlier node of the list. -/
def GraphWellFormed (g : List SimNode) : Prop :=
  ∀ i (hi : i < g.length), ∀ d ∈ (g.get ⟨i, hi⟩).deps, d < i

/-- Observed payload quantities are nonnegative. -/
def NodeKindNonneg : NodeKind → Prop
  | .network _ kb => 0 ≤ kb
  | .cpu selfMs => 0 ≤ selfMs

/-- All nodes of the graph carry nonnegative observed quantities. -/
def GraphNonneg (g : List SimNode) : Prop :=
  ∀ n ∈ g, NodeKindNonneg n.kind

/-- All throttling parameters are nonnegative. -/
def ProfileNonneg (p : ThrottlingProfile) : Prop :=
  0 ≤ p.rttMs ∧ 0 ≤ p.throughputKbps ∧ 0 ≤ p.cpuSlowdownMultiplier

/-! ### Pointwise comparison of timing lists -/

/-- Pointwise comparison of two timing lists of equal shape. -/
def TimingsLE (t₁ t₂ : List (ℚ × ℚ)) : Prop :=
  List.Forall₂ (fun a b => a.1 ≤ b.1 ∧ a.2 ≤ b.2) t₁ t₂

theorem TimingsLE.depEnd_le {t₁ t₂ : List (ℚ × ℚ)} (h : TimingsLE t₁ t₂) (d : Nat) :
    depEnd t₁ d ≤ depEnd t₂ d := by
  induction h generalizing d with
  | nil => exact le_refl _
  | cons hab _ ih =>
    cases d with
    | zero => simpa [depEnd] using hab.2
    | succ d => simpa [depEnd] using ih d

theorem maxDepEnd_le {t₁ t₂ : List (ℚ × ℚ)} (h : ∀ d, depEnd t₁ d ≤ depEnd t₂ d)
    (deps : List Nat) : maxDepEnd t₁ deps ≤ maxDepEnd t₂ deps := by
  induction deps with
  | nil => exact le_refl _
  | cons d rest ih => exact max_le_max (h d) ih

theorem depEnd_le_maxDepEnd {t : List (ℚ × ℚ)} {deps : List Nat} {d : Nat}
    (hd : d ∈ deps) : depEnd t d ≤ maxDepEnd t deps := by
  induction deps with
  | nil => cases hd
  | cons e rest ih =>
    rcases List.mem_cons.mp hd with h | h
    · subst h; exact le_max_left _ _
    · exact le_trans (ih h) (le_max_right _ _)

theorem TimingsLE.total_le {t₁ t₂ : List (ℚ × ℚ)} (h : TimingsLE t₁ t₂) :
    (t₁.map Prod.snd).foldr max 0 ≤ (t₂.map Prod.snd).foldr max 0 := by
  induction h with
  | nil => exact le_refl _
  | cons hab _ ih => exact max_le_max hab.2 ih

/-! ### The pessimistic run dominates the optimistic run -/

theorem nodeDuration_opt_le_pess (p : ThrottlingProfile) (hrtt : 0 ≤ p.rttMs)
    (hosts : List String) (k : NodeKind) :
    nodeDuration p .optimistic hosts k ≤ nodeDuration p .pessimistic hosts k := by
  cases k with
  | network host kb =>
    have hsetup : connectionSetupMs p .optimistic hosts host ≤
        connectionSetupMs p .pessimistic hosts host := by
      simp only [connectionSetupMs]
      split
      · exact mul_nonneg (by norm_num [handshakeRtts]) hrtt
      · exact le_refl _
    simp only [nodeDuration]
    exact add_le_add_right (add_le_add_right hsetup p.rttMs) _
  | cpu selfMs => exact le_refl _

theorem sim_fold_le (p : ThrottlingProfile) (hrtt : 0 ≤ p.rttMs) :
    ∀ (g : List SimNode) (st₁ st₂ : SimState), st₁.hosts = st₂.hosts →
      TimingsLE st₁.timings st₂.timings →
      (g.foldl (simStep p .optimistic) st₁).hosts =
          (g.foldl (simStep p .pessimistic) st₂).hosts ∧
        TimingsLE (g.foldl (simStep p .optimistic) st₁).timings
          (g.foldl (simStep p .pessimistic) st₂).timings := by
  intro g
  induction g with
  | nil => exact fun st₁ st₂ hh ht => ⟨hh, ht⟩
  | cons n rest ih =>
    intro st₁ st₂ hh ht
    simp only [List.foldl_cons]
    apply ih
    · simp only [simStep, hh]
    · have hstart : maxDepEnd st₁.timings n.deps ≤ maxDepEnd st₂.timings n.deps :=
        maxDepEnd_le ht.depEnd_le n.deps
      have hdur : nodeDuration p .optimistic st₁.hosts n.kind ≤
          nodeDuration p .pessimistic st₂.hosts n.kind := by
        rw [hh]; exact nodeDuration_opt_le_pess p hrtt st₂.hosts n.kind
      exact List.rel_append ht
        (List.forall₂_cons.mpr ⟨⟨hstart, add_le_add hstart hdur⟩, List.Forall₂.nil⟩)

/-- C1: for every dependency graph and throttling profile with a nonnegative
round-trip time, the pessimistic run of the Simulator over the identical graph
finishes no earlier than the optimistic run. -/
theorem pessimistic_total_ge_optimistic (g : List SimNode) (p : ThrottlingProfile)
    (hrtt : 0 ≤ p.rttMs) :
    (simulate g p .optimistic).totalTime ≤ (simulate g p .pessimistic).totalTime := by
  have h := sim_fold_le p hrtt g ⟨[], []⟩ ⟨[], []⟩ rfl List.Forall₂.nil
  exact h.2.total_le

/-- Witness for C1 at a concrete two-request, one-task graph under a mobile
style throttling profile. -/
theorem pessimistic_total_ge_optimistic_witness :
    0 ≤ (ThrottlingProfile.mk 150 1600 4).rttMs ∧
      (simulate
          [⟨.network "example.com" 30, []⟩, ⟨.network "example.com" 20, [0]⟩,
            ⟨.cpu 200, [1]⟩]
          (ThrottlingProfile.mk 150 1600 4) .optimistic).totalTime ≤
        (simulate
          [⟨.network "example.com" 30, []⟩, ⟨.network "example.com" 20, [0]⟩,
            ⟨.cpu 200, [1]⟩]
          (ThrottlingProfile.mk 150 1600 4) .pessimistic).totalTime :=
  ⟨by norm_num,
    pessimistic_total_ge_optimistic
      [⟨.network "example.com" 30, []⟩, ⟨.network "example.com" 20, [0]⟩,
        ⟨.cpu 200, [1]⟩]
      (ThrottlingProfile.mk 150 1600 4) (by norm_num)⟩

/-- C2: the Simulator is deterministic; it is a pure function of the graph,
the throttling profile and the estimate strategy, with no randomness and no
wall-clock input, so two runs on identical inputs return identical results. -/
theorem simulate_deterministic (g₁ g₂ : List SimNode) (p₁ p₂ : ThrottlingProfile)
    (s₁ s₂ : EstimateStrategy) (hg : g₁ = g₂) (hp : p₁ = p₂) (hs : s₁ = s₂) :
    simulate g₁ p₁ s₁ = simulate g₂ p₂ s₂ := by
  subst hg; subst hp; subst hs; rfl

/-- Witness for C2 at a concrete graph, profile and strategy. -/
theorem simulate_deterministic_witness :
    simulate [⟨.network "a.com" 10, []⟩, ⟨.cpu 50, [0]⟩]
        (ThrottlingProfile.mk 150 1600 4) .pessimistic =
      simulate [⟨.network "a.com" 10, []⟩, ⟨.cpu 50, [0]⟩]
        (ThrottlingProfile.mk 150 1600 4) .pessimistic :=
  simulate_deterministic _ _ _ _ _ _ rfl rfl rfl

/-! ### Timing invariants of a simulation run -/

theorem connectionSetupMs_nonneg (p : ThrottlingProfile) (s : EstimateStrategy)
    (hosts : List String) (host : String) (hrtt : 0 ≤ p.rttMs) :
    0 ≤ connectionSetupMs p s hosts host := by
  cases s with
  | optimistic =>
    simp only [connectionSetupMs]
    split
    · exact le_refl _
    · exact mul_nonneg (by norm_num [handshakeRtts]) hrtt
  | pessimistic => exact mul_nonneg (by norm_num [handshakeRtts]) hrtt

theorem nodeDuration_nonneg (p : ThrottlingProfile) (s : EstimateStrategy)
    (hosts : List String) (k : NodeKind) (hp : ProfileNonneg p)
    (hk : NodeKindNonneg k) : 0 ≤ nodeDuration p s hosts k := by
  obtain ⟨hrtt, hthr, hmul⟩ := hp
  cases k with
  | network host kb =>
    have h1 : 0 ≤ connectionSetupMs p s hosts host :=
      connectionSetupMs_nonneg p s hosts host hrtt
    have hkb : (0 : ℚ) ≤ kb := hk
    have h2 : (0 : ℚ) ≤ kb * 8 * 1000 / p.throughputKbps :=
      div_nonneg (by positivity) hthr
    have := add_nonneg (add_nonneg h1 hrtt) h2
    simpa [nodeDuration] using this
  | cpu selfMs => exact mul_nonneg hk hmul

/-- Default node used only as a lookup default. -/
def defaultSimNode : SimNode := ⟨.cpu 0, []⟩

/-- Invariant carried by the discrete-event loop: every scheduled node has a
start no later than its end, and starts no earlier than the end of each of its
already-scheduled dependencies. -/
def TimingsOk (g : List SimNode) (timings : List (ℚ × ℚ)) : Prop :=
  ∀ i, i < g.length →
    (timings.getD i (0, 0)).1 ≤ (timings.getD i (0, 0)).2 ∧
      ∀ d ∈ (g.getD i defaultSimNode).deps, d < i →
        depEnd timings d ≤ (timings.getD i (0, 0)).1

theorem sim_fold_invariant (p : ThrottlingProfile) (s : EstimateStrategy)
    (hp : ProfileNonneg p) :
    ∀ (rest gdone : List SimNode) (st : SimState),
      (∀ n ∈ rest, NodeKindNonneg n.kind) →
      st.timings.length = gdone.length →
      TimingsOk gdone st.timings →
      (rest.foldl (simStep p s) st).timings.length = (gdone ++ rest).length ∧
        TimingsOk (gdone ++ rest) (rest.foldl (simStep p s) st).timings := by
  intro rest
  induction rest with
  | nil =>
    intro gdone st _ hlen hok
    simpa using ⟨hlen, hok⟩
  | cons n rest ih =>
    intro gdone st hnn hlen hok
    have hrec := ih (gdone ++ [n]) (simStep p s st n)
      (fun m hm => hnn m (List.mem_cons_of_mem n hm))
      (by simp [simStep, hlen])
      (by
        intro i hi
        simp only [List.length_append, List.length_cons, List.length_nil] at hi
        rcases Nat.lt_succ_iff_lt_or_eq.mp hi with hi' | hi'
        · -- previously scheduled node: its entry and its dependencies are stable
          have hgetT : (simStep p s st n).timings.getD i (0, 0) =
              st.timings.getD i (0, 0) := by
            simp only [simStep]
            exact List.getD_append _ _ _ _ (by rw [hlen]; exact hi')
          have hgetG : (gdone ++ [n]).getD i defaultSimNode =
              gdone.getD i defaultSimNode :=
            List.getD_append _ _ _ _ hi'
          rw [hgetT, hgetG]
          refine ⟨(hok i hi').1, fun d hd hdi => ?_⟩
          have hstable : depEnd (simStep p s st n).timings d = depEnd st.timings d := by
            simp only [simStep, depEnd]
            rw [List.getD_append _ _ _ _ (by rw [hlen]; exact lt_trans hdi hi')]
          rw [hstable]
          exact (hok i hi').2 d hd hdi
        · -- the freshly scheduled node
          subst hi'
          have hgetT : (simStep p s st n).timings.getD gdone.length (0, 0) =
              (maxDepEnd st.timings n.deps,
                maxDepEnd st.timings n.deps +
                  nodeDuration p s st.hosts n.kind) := by
            simp only [simStep]
            rw [List.getD_append_right _ _ _ _ (le_of_eq hlen), hlen]
            simp
          have hgetG : (gdone ++ [n]).getD gdone.length defaultSimNode = n := by
            rw [List.getD_append_right _ _ _ _ (le_refl _)]
            simp
          rw [hgetT, hgetG]
          constructor
          · have := nodeDuration_nonneg p s st.hosts n.kind hp
              (hnn n (List.mem_cons_self n rest))
            simpa using this
          · intro d hd hdi
            have hstable : depEnd (simStep p s st n).timings d = depEnd st.timings d := by
              simp only [simStep, depEnd]
              rw [List.getD_append _ _ _ _ (by rw [hlen]; exact hdi)]
            rw [hstable]
            exact depEnd_le_maxDepEnd hd)
    rw [List.foldl_cons]
    have hassoc : gdone ++ [n] ++ rest = gdone ++ n :: rest := by
      simp
    rw [hassoc] at hrec
    exact hrec

/-- C3: in every SimulationResult produced by the Simulator on a well-formed
graph with nonnegative observed quantities under a nonnegative profile, every
node satisfies startTime less-or-equal endTime, and its start is at least the
end time of each of its dependencies (hence at least their maximum). -/
theorem simulate_timing_invariants (g : List SimNode) (p : ThrottlingProfile)
    (s : EstimateStrategy) (hwf : GraphWellFormed g) (hg : GraphNonneg g)
    (hp : ProfileNonneg p) :
    (simulate g p s).nodeTimings.length = g.length ∧
      ∀ i, i < g.length →
        ((simulate g p s).nodeTimings.getD i (0, 0)).1 ≤
            ((simulate g p s).nodeTimings.getD i (0, 0)).2 ∧
          ∀ d ∈ (g.getD i defaultSimNode).deps,
            depEnd (simulate g p s).nodeTimings d ≤
              ((simulate g p s).nodeTimings.getD i (0, 0)).1 := by
  have h := sim_fold_invariant p s hp g [] ⟨[], []⟩ hg rfl (by
    intro i hi
    simp at hi)
  simp only [List.nil_append] at h
  refine ⟨h.1, fun i hi => ⟨(h.2 i hi).1, fun d hd => ?_⟩⟩
  have hdi : d < i := by
    have hget : g.getD i defaultSimNode = g.get ⟨i, hi⟩ := by
      rw [List.getD_eq_getElem _ _ hi]
      simp
    exact hwf i hi d (by rw [← hget]; exact hd)
  exact (h.2 i hi).2 d hd hdi

/-- Sample graph used by concrete witnesses. -/
def sampleGraph : List SimNode :=
  [⟨.network "example.com" 30, []⟩, ⟨.network "cdn.example.com" 20, [0]⟩,
    ⟨.cpu 200, [0, 1]⟩]

/-- Sample mobile-style throttling profile used by concrete witnesses. -/
def sampleProfile : ThrottlingProfile := ⟨150, 1600, 4⟩

/-- Witness for C3 at a concrete three-node graph. -/
theorem simulate_timing_invariants_witness :
    GraphWellFormed sampleGraph ∧ GraphNonneg sampleGraph ∧
      ProfileNonneg sampleProfile ∧
      ((simulate sampleGraph sampleProfile .pessimistic).nodeTimings.length =
          sampleGraph.length ∧
        ∀ i, i < sampleGraph.length →
          ((simulate sampleGraph sampleProfile
                  .pessimistic).nodeTimings.getD i (0, 0)).1 ≤
              ((simulate sampleGraph sampleProfile
                  .pessimistic).nodeTimings.getD i (0, 0)).2 ∧
            ∀ d ∈ (sampleGraph.getD i defaultSimNode).deps,
              depEnd (simulate sampleGraph sampleProfile
                    .pessimistic).nodeTimings d ≤
                ((simulate sampleGraph sampleProfile
                    .pessimistic).nodeTimings.getD i (0, 0)).1) := by
  have hwf : GraphWellFormed sampleGraph := by
    intro i hi d hd
    have hi3 : i < 3 := by simpa [sampleGraph] using hi
    interval_cases i <;> (simp_all [sampleGraph]; try omega)
  have hg : GraphNonneg sampleGraph := by
    intro n hn
    fin_cases hn <;> norm_num [NodeKindNonneg]
  have hp : ProfileNonneg sampleProfile := by
    refine ⟨by norm_num [sampleProfile], by norm_num [sampleProfile],
      by norm_num [sampleProfile]⟩
  exact ⟨hwf, hg, hp,
    simulate_timing_invariants sampleGraph sampleProfile .pessimistic hwf hg hp⟩

/-! ## Quiet-period scanner

Modelled from the spec: the quiet-period state machine of section 4.5 and its
entry point findOverlappingQuietPeriods (computed/metrics/interactive.js) are
not under the shipped sources; only their test file is.  The model follows the
words of sections 4.5, 6 and 8, with two details pinned by the expectations of
the shipped test file interactive-test.js: the network track counts as quiet
while at most two considered requests are in flight (the test triples its
decoy requests to rule the two-request allowance out as an explanation), and
the per-track quiet periods are assembled by a sweep over sorted start/end
boundaries.  Timestamps of the trace are in microseconds, network record times
in seconds, CPU task times in milliseconds relative to the time origin, as in
the test fixtures. -/

/-- A time interval; the field stop models the JS field named end. -/
structure TimePeriod where
  start : ℚ
  stop : ℚ
deriving DecidableEq

/-- The shape of a network record consumed by the quiet-period scanner, as
produced by the test helper generateNetworkRecords. -/
structure NetworkRecordQ where
  failed : Bool
  statusCode : Int
  requestMethod : String
  finished : Bool
  startTime : ℚ
  endTime : ℚ
deriving DecidableEq

/-- A main-thread busy interval, milliseconds relative to the time origin;
the field stop models the JS field named end. -/
structure CpuTaskPeriod where
  start : ℚ
  stop : ℚ
deriving DecidableEq

/-- Trace timestamps in microseconds. -/
structure TraceTimestamps where
  timeOrigin : ℚ
  firstContentfulPaint : ℚ
  traceEnd : ℚ
deriving DecidableEq

/-- Threshold duration of a joint quiet window (section 4.5): five seconds. -/
def REQUIRED_QUIET_WINDOW : ℚ := 5000

/-- Number of simultaneously in-flight considered requests the network track
tolerates while still counting as quiet (pinned by the shipped test). -/
def ALLOWED_CONCURRENT_REQUESTS : Int := 2

/-- A network request is considered by network-quiet detection only when it
finished, did not fail, used the GET method and returned a 2xx status
(section 4.5: other requests are ignorable). -/
def validQuietRequest (r : NetworkRecordQ) : Bool :=
  r.finished && !r.failed && (r.requestMethod == "GET") &&
    decide (200 ≤ r.statusCode) && decide (r.statusCode < 300)

/-- One endpoint of a considered request, in trace milliseconds. -/
structure TimeBoundary where
  time : ℚ
  isStart : Bool
deriving DecidableEq

/-- Start and end boundaries of all considered requests, in record order. -/
def recordBoundaries (records : List NetworkRecordQ) : List TimeBoundary :=
  (records.filter validQuietRequest).foldr
    (fun r acc => ⟨r.startTime * 1000, true⟩ :: ⟨r.endTime * 1000, false⟩ :: acc) []

/-- Stable insertion of a boundary into a time-sorted boundary list. -/
def insertBoundary (b : TimeBoundary) : List TimeBoundary → List TimeBoundary
  | [] => [b]
  | c :: cs => if b.time ≤ c.time then b :: c :: cs else c :: insertBoundary b cs

/-- Stable sort of boundaries by time. -/
def sortBoundaries : List TimeBoundary → List TimeBoundary
  | [] => []
  | b :: bs => insertBoundary b (sortBoundaries bs)

/-- Sweep over sorted boundaries maintaining the number of in-flight
requests: a quiet period closes when the count first exceeds the allowance
and reopens when it drops back to it; the last quiet period is extended to
the trace end. -/
def networkSweep : List TimeBoundary → Int → ℚ → ℚ → List TimePeriod
  | [], inflight, qs, tEnd =>
    if inflight ≤ ALLOWED_CONCURRENT_REQUESTS then [⟨qs, tEnd⟩] else []
  | b :: bs, inflight, qs, tEnd =>
    if b.isStart then
      if inflight = ALLOWED_CONCURRENT_REQUESTS then
        ⟨qs, b.time⟩ :: networkSweep bs (inflight + 1) qs tEnd
      else networkSweep bs (inflight + 1) qs tEnd
    else
      if inflight - 1 = ALLOWED_CONCURRENT_REQUESTS then
        networkSweep bs (inflight - 1) b.time tEnd
      else networkSweep bs (inflight - 1) qs tEnd

/-- Quiet periods of the network track, in trace milliseconds. -/
def findNetworkQuietPeriods (records : List NetworkRecordQ)
    (tt : TraceTimestamps) : List TimePeriod :=
  networkSweep (sortBoundaries (recordBoundaries records)) 0 0 (tt.traceEnd / 1000)

/-- Gaps between consecutive CPU tasks; the gap after the last task is
extended to the trace end. -/
def cpuGaps : List CpuTaskPeriod → ℚ → ℚ → List TimePeriod
  | [], _, _ => []
  | [t], o, tEnd => [⟨t.stop + o, tEnd⟩]
  | t :: u :: rest, o, tEnd => ⟨t.stop + o, u.start + o⟩ :: cpuGaps (u :: rest) o tEnd

/-- Quiet periods of the CPU track: with no tasks the whole trace is quiet,
otherwise the stretch up to the first task followed by the inter-task gaps. -/
def findCPUQuietPeriods (tasks : List CpuTaskPeriod)
    (tt : TraceTimestamps) : List TimePeriod :=
  let o := tt.timeOrigin / 1000
  let tEnd := tt.traceEnd / 1000
  match tasks with
  | [] => [⟨0, tEnd⟩]
  | t :: rest => ⟨0, t.start + o⟩ :: cpuGaps (t :: rest) o tEnd

/-- A quiet period is usable when it lasts at least the required window and
reaches past the reference paint plus the required window. -/
def isLongEnoughQuietPeriod (fcpMs : ℚ) (p : TimePeriod) : Bool :=
  decide (fcpMs + REQUIRED_QUIET_WINDOW < p.stop) &&
    decide (REQUIRED_QUIET_WINDOW ≤ p.stop - p.start)

/-- Decidable equality of fallible results, used to evaluate the scanner on
concrete scenarios. -/
instance exceptDecEq {ε α : Type} [DecidableEq ε] [DecidableEq α] :
    DecidableEq (Except ε α) := fun x y =>
  match x, y with
  | .ok a, .ok b =>
    if h : a = b then isTrue (by rw [h])
    else isFalse (by intro hh; cases hh; exact h rfl)
  | .error e, .error f =>
    if h : e = f then isTrue (by rw [h])
    else isFalse (by intro hh; cases hh; exact h rfl)
  | .ok _, .error _ => isFalse (by intro hh; cases hh)
  | .error _, .ok _ => isFalse (by intro hh; cases hh)

/-- Failure kinds of the quiet-period scan (sections 4.5 and 7). -/
inductive QuietPeriodError
  | NO_CPU_IDLE_PERIOD
  | NO_NETWORK_IDLE_PERIOD
  | NO_IDLE_PERIOD
deriving DecidableEq

/-- Output of the quiet-period scan (section 6). -/
structure OverlappingQuietPeriods where
  cpuQuietPeriod : TimePeriod
  networkQuietPeriod : TimePeriod
  cpuQuietPeriods : List TimePeriod
  networkQuietPeriods : List TimePeriod
deriving DecidableEq

/-- Two-queue scan for the first pair of CPU and network quiet periods whose
joint window lasts at least the required duration; the fuel argument is the
combined queue length, enough for the scan to exhaust both queues.  The track
whose queue runs out first is the one that never quieted. -/
def scanQuiet :
    Nat → List TimePeriod → List TimePeriod →
      Except QuietPeriodError (TimePeriod × TimePeriod)
  | _, [], _ => .error .NO_CPU_IDLE_PERIOD
  | _, _ :: _, [] => .error .NO_NETWORK_IDLE_PERIOD
  | 0, _ :: _, _ :: _ => .error .NO_IDLE_PERIOD
  | fuel + 1, c :: cs, n :: ns =>
    if n.start ≤ c.start then
      if c.start + REQUIRED_QUIET_WINDOW ≤ n.stop then .ok (c, n)
      else scanQuiet fuel (c :: cs) ns
    else
      if n.start + REQUIRED_QUIET_WINDOW ≤ c.stop then .ok (c, n)
      else scanQuiet fuel cs (n :: ns)

/-- Modelled from the spec: findOverlappingQuietPeriods (section 4.5), the
quiet-period entry point of the interactivity metric.  It computes both
tracks of quiet periods, keeps those long enough after the reference paint,
fails with the generic NO_IDLE_PERIOD when the trace ends too soon for either
track to offer any usable period, and otherwise scans for the first
overlapping pair, failing with the error naming the track that never
quieted. -/
def findOverlappingQuietPeriods (tasks : List CpuTaskPeriod)
    (records : List NetworkRecordQ) (tt : TraceTimestamps) :
    Except QuietPeriodError OverlappingQuietPeriods :=
  let fcpMs := tt.firstContentfulPaint / 1000
  let networkQuietPeriods :=
    (findNetworkQuietPeriods records tt).filter (isLongEnoughQuietPeriod fcpMs)
  let cpuQuietPeriods :=
    (findCPUQuietPeriods tasks tt).filter (isLongEnoughQuietPeriod fcpMs)
  if cpuQuietPeriods.isEmpty && networkQuietPeriods.isEmpty then
    .error .NO_IDLE_PERIOD
  else
    match scanQuiet (cpuQuietPeriods.length + networkQuietPeriods.length)
        cpuQuietPeriods networkQuietPeriods with
    | .ok (c, n) => .ok ⟨c, n, cpuQuietPeriods, networkQuietPeriods⟩
    | .error e => .error e

/-- The test helper generateNetworkRecords of interactive-test.js: times are
given in milliseconds relative to the time origin and converted to absolute
seconds. -/
def generateNetworkRecord (timeOrigin start stop : ℚ) (failed : Bool)
    (statusCode : Int) (requestMethod : String) (finished : Bool) :
    NetworkRecordQ :=
  { failed := failed
    statusCode := statusCode
    requestMethod := requestMethod
    finished := finished
    startTime := (start + timeOrigin / 1000) / 1000
    endTime := if stop = -1 then -1 else (stop + timeOrigin / 1000) / 1000 }

/-! ### Concrete quiet-period scenarios -/

/-- C6 (amended): with one CPU task busy during 3000 to 8000 milliseconds,
one finished GET request ending at 1900 milliseconds, the reference paint at
2500 milliseconds and the trace ending at 10000 milliseconds (as in the
shipped test: past paint plus 5000, but less than 5000 milliseconds after
the CPU task ends), the scan fails with NO_CPU_IDLE_PERIOD: the network
track is quiet throughout yet the CPU track never offers a usable quiet
period. -/
theorem quiet_scan_no_cpu_idle :
    findOverlappingQuietPeriods [⟨3000, 8000⟩]
        [generateNetworkRecord 220023532 0 1900 false 200 "GET" true]
        ⟨220023532, 222523532, 230023532⟩ =
      .error .NO_CPU_IDLE_PERIOD := by
  norm_num [findOverlappingQuietPeriods, findNetworkQuietPeriods,
    findCPUQuietPeriods, recordBoundaries, sortBoundaries, insertBoundary,
    networkSweep, cpuGaps, isLongEnoughQuietPeriod, scanQuiet,
    REQUIRED_QUIET_WINDOW, ALLOWED_CONCURRENT_REQUESTS, validQuietRequest,
    generateNetworkRecord, List.filter, List.isEmpty]

/-- C6 (counterexample): in the same scenario with the trace end moved well
past 8000 plus 5000 milliseconds (to 20000 milliseconds), the CPU track is
quiet from 8000 milliseconds to the trace end for longer than the required
window, so the scan succeeds instead of failing with NO_CPU_IDLE_PERIOD. -/
theorem quiet_scan_long_trace_cpu_ok :
    findOverlappingQuietPeriods [⟨3000, 8000⟩]
        [generateNetworkRecord 220023532 0 1900 false 200 "GET" true]
        ⟨220023532, 222523532, 240023532⟩ =
      .ok ⟨⟨8000 + 220023532 / 1000, 240023532 / 1000⟩,
        ⟨0, 240023532 / 1000⟩,
        [⟨8000 + 220023532 / 1000, 240023532 / 1000⟩],
        [⟨0, 240023532 / 1000⟩]⟩ ∧
      findOverlappingQuietPeriods [⟨3000, 8000⟩]
          [generateNetworkRecord 220023532 0 1900 false 200 "GET" true]
          ⟨220023532, 222523532, 240023532⟩ ≠
        .error .NO_CPU_IDLE_PERIOD := by
  have heval : findOverlappingQuietPeriods [⟨3000, 8000⟩]
      [generateNetworkRecord 220023532 0 1900 false 200 "GET" true]
      ⟨220023532, 222523532, 240023532⟩ =
      .ok ⟨⟨8000 + 220023532 / 1000, 240023532 / 1000⟩,
        ⟨0, 240023532 / 1000⟩,
        [⟨8000 + 220023532 / 1000, 240023532 / 1000⟩],
        [⟨0, 240023532 / 1000⟩]⟩ := by
    norm_num [findOverlappingQuietPeriods, findNetworkQuietPeriods,
      findCPUQuietPeriods, recordBoundaries, sortBoundaries, insertBoundary,
      networkSweep, cpuGaps, isLongEnoughQuietPeriod, scanQuiet,
      REQUIRED_QUIET_WINDOW, ALLOWED_CONCURRENT_REQUESTS, validQuietRequest,
      generateNetworkRecord, List.filter, List.isEmpty]
  exact ⟨heval, by rw [heval]; intro h; cases h⟩

/-- C7: with a single 1900 millisecond GET request, no CPU tasks, the first
contentful paint at 2500 milliseconds and the trace ending only 5000
milliseconds after the paint, neither track offers a period reaching past
paint plus 5000, so the scan fails with the generic NO_IDLE_PERIOD. -/
theorem quiet_scan_trace_too_short :
    findOverlappingQuietPeriods []
        [generateNetworkRecord 220023532 0 1900 false 200 "GET" true]
        ⟨220023532, 222523532, 227523532⟩ =
      .error .NO_IDLE_PERIOD := by
  norm_num [findOverlappingQuietPeriods, findNetworkQuietPeriods,
    findCPUQuietPeriods, recordBoundaries, sortBoundaries, insertBoundary,
    networkSweep, cpuGaps, isLongEnoughQuietPeriod, scanQuiet,
    REQUIRED_QUIET_WINDOW, ALLOWED_CONCURRENT_REQUESTS, validQuietRequest,
    generateNetworkRecord, List.filter, List.isEmpty]

/-- When every record is filtered out of network-quiet detection and there
are no CPU tasks, both tracks are quiet over the whole trace and the scan
returns the full-trace period on both. -/
theorem findOverlapping_all_quiet (records : List NetworkRecordQ)
    (tt : TraceTimestamps) (hfilter : records.filter validQuietRequest = [])
    (hfcp : 0 ≤ tt.firstContentfulPaint)
    (hwin : tt.firstContentfulPaint / 1000 + REQUIRED_QUIET_WINDOW <
      tt.traceEnd / 1000) :
    findOverlappingQuietPeriods [] records tt =
      .ok ⟨⟨0, tt.traceEnd / 1000⟩, ⟨0, tt.traceEnd / 1000⟩,
        [⟨0, tt.traceEnd / 1000⟩], [⟨0, tt.traceEnd / 1000⟩]⟩ := by
  have hfcp0 : (0 : ℚ) ≤ tt.firstContentfulPaint / 1000 :=
    div_nonneg hfcp (by norm_num)
  have hE5 : (5000 : ℚ) ≤ tt.traceEnd / 1000 := by
    have := hwin
    simp only [REQUIRED_QUIET_WINDOW] at this
    linarith
  have hwin5 : tt.firstContentfulPaint / 1000 + 5000 < tt.traceEnd / 1000 := by
    have := hwin
    simpa [REQUIRED_QUIET_WINDOW] using this
  have hlong : isLongEnoughQuietPeriod (tt.firstContentfulPaint / 1000)
      ⟨0, tt.traceEnd / 1000⟩ = true := by
    simp only [isLongEnoughQuietPeriod, Bool.and_eq_true, decide_eq_true_eq,
      REQUIRED_QUIET_WINDOW]
    exact ⟨hwin5, by linarith⟩
  norm_num [findOverlappingQuietPeriods, findNetworkQuietPeriods,
    findCPUQuietPeriods, recordBoundaries, hfilter, sortBoundaries,
    networkSweep, cpuGaps, scanQuiet, hlong,
    REQUIRED_QUIET_WINDOW, ALLOWED_CONCURRENT_REQUESTS, List.isEmpty, hE5]

/-- C8: with zero CPU tasks and zero network records and a trace end more
than 5000 milliseconds past the reference paint, both the CPU and the network
quiet period span the whole trace from time 0 to trace end. -/
theorem quiet_scan_empty_inputs (tt : TraceTimestamps)
    (hfcp : 0 ≤ tt.firstContentfulPaint)
    (hwin : tt.firstContentfulPaint / 1000 + REQUIRED_QUIET_WINDOW <
      tt.traceEnd / 1000) :
    findOverlappingQuietPeriods [] [] tt =
      .ok ⟨⟨0, tt.traceEnd / 1000⟩, ⟨0, tt.traceEnd / 1000⟩,
        [⟨0, tt.traceEnd / 1000⟩], [⟨0, tt.traceEnd / 1000⟩]⟩ :=
  findOverlapping_all_quiet [] tt rfl hfcp hwin

/-- Witness for C8 at the timestamps of the shipped test. -/
theorem quiet_scan_empty_inputs_witness :
    0 ≤ (222523532 : ℚ) ∧
      (222523532 : ℚ) / 1000 + REQUIRED_QUIET_WINDOW < 230023532 / 1000 ∧
      findOverlappingQuietPeriods [] [] ⟨220023532, 222523532, 230023532⟩ =
        .ok ⟨⟨0, 230023532 / 1000⟩, ⟨0, 230023532 / 1000⟩,
          [⟨0, 230023532 / 1000⟩], [⟨0, 230023532 / 1000⟩]⟩ :=
  ⟨by norm_num, by norm_num [REQUIRED_QUIET_WINDOW],
    quiet_scan_empty_inputs ⟨220023532, 222523532, 230023532⟩ (by norm_num)
      (by norm_num [REQUIRED_QUIET_WINDOW])⟩

/-- C5: a request is ignorable when it failed, or returned a status outside
the 2xx range, or used a method other than GET; with only ignorable requests
and no CPU tasks, the scan reports both tracks quiet over the whole trace. -/
theorem quiet_scan_ignores_decoy_requests (records : List NetworkRecordQ)
    (tt : TraceTimestamps)
    (hign : ∀ r ∈ records, r.failed = true ∨
      ¬(200 ≤ r.statusCode ∧ r.statusCode < 300) ∨ r.requestMethod ≠ "GET")
    (hfcp : 0 ≤ tt.firstContentfulPaint)
    (hwin : tt.firstContentfulPaint / 1000 + REQUIRED_QUIET_WINDOW <
      tt.traceEnd / 1000) :
    findOverlappingQuietPeriods [] records tt =
      .ok ⟨⟨0, tt.traceEnd / 1000⟩, ⟨0, tt.traceEnd / 1000⟩,
        [⟨0, tt.traceEnd / 1000⟩], [⟨0, tt.traceEnd / 1000⟩]⟩ := by
  apply findOverlapping_all_quiet records tt _ hfcp hwin
  rw [List.filter_eq_nil_iff]
  intro r hr
  rcases hign r hr with h | h | h
  · simp [validQuietRequest, h]
  · simp only [validQuietRequest, Bool.and_eq_true, decide_eq_true_eq]
    intro hcon
    exact h ⟨hcon.1.2, hcon.2⟩
  · simp [validQuietRequest, h]

/-- Witness for C5: the three decoy requests of the shipped test (failed,
POST, status 500), tripled in count. -/
theorem quiet_scan_ignores_decoy_requests_witness :
    (∀ r ∈
        [generateNetworkRecord 220023532 0 11000 true 200 "GET" true,
          generateNetworkRecord 220023532 0 11000 false 200 "POST" true,
          generateNetworkRecord 220023532 0 11000 false 500 "GET" true,
          generateNetworkRecord 220023532 0 11000 true 200 "GET" true,
          generateNetworkRecord 220023532 0 11000 false 200 "POST" true,
          generateNetworkRecord 220023532 0 11000 false 500 "GET" true,
          generateNetworkRecord 220023532 0 11000 true 200 "GET" true,
          generateNetworkRecord 220023532 0 11000 false 200 "POST" true,
          generateNetworkRecord 220023532 0 11000 false 500 "GET" true],
        r.failed = true ∨ ¬(200 ≤ r.statusCode ∧ r.statusCode < 300) ∨
          r.requestMethod ≠ "GET") ∧
      findOverlappingQuietPeriods []
          [generateNetworkRecord 220023532 0 11000 true 200 "GET" true,
            generateNetworkRecord 220023532 0 11000 false 200 "POST" true,
            generateNetworkRecord 220023532 0 11000 false 500 "GET" true,
            generateNetworkRecord 220023532 0 11000 true 200 "GET" true,
            generateNetworkRecord 220023532 0 11000 false 200 "POST" true,
            generateNetworkRecord 220023532 0 11000 false 500 "GET" true,
            generateNetworkRecord 220023532 0 11000 true 200 "GET" true,
            generateNetworkRecord 220023532 0 11000 false 200 "POST" true,
            generateNetworkRecord 220023532 0 11000 false 500 "GET" true]
          ⟨220023532, 222523532, 230023532⟩ =
        .ok ⟨⟨0, 230023532 / 1000⟩, ⟨0, 230023532 / 1000⟩,
          [⟨0, 230023532 / 1000⟩], [⟨0, 230023532 / 1000⟩]⟩ :=
  ⟨by
      intro r hr
      fin_cases hr <;> simp [generateNetworkRecord],
    quiet_scan_ignores_decoy_requests _ ⟨220023532, 222523532, 230023532⟩
      (by
        intro r hr
        fin_cases hr <;> simp [generateNetworkRecord])
      (by norm_num)
      (by norm_num [REQUIRED_QUIET_WINDOW])⟩

/-! ### The scan returns the first overlapping pair -/

/-- Quiet periods listed in order of their starts. -/
def PeriodsSortedByStart (l : List TimePeriod) : Prop :=
  List.Pairwise (fun a b => a.start ≤ b.start) l

/-- Two quiet periods overlap in a joint window of at least the required
duration. -/
def JointQuietOk (c n : TimePeriod) : Prop :=
  max c.start n.start + REQUIRED_QUIET_WINDOW ≤ min c.stop n.stop

theorem scanQuiet_spec :
    ∀ (fuel : Nat) (cq nq : List TimePeriod),
      cq.length + nq.length ≤ fuel →
      (∀ p ∈ cq, REQUIRED_QUIET_WINDOW ≤ p.stop - p.start) →
      (∀ p ∈ nq, REQUIRED_QUIET_WINDOW ≤ p.stop - p.start) →
      PeriodsSortedByStart cq → PeriodsSortedByStart nq →
      (∀ c n, scanQuiet fuel cq nq = .ok (c, n) →
          c ∈ cq ∧ n ∈ nq ∧ JointQuietOk c n ∧
            ∀ c' ∈ cq, ∀ n' ∈ nq, JointQuietOk c' n' →
              max c.start n.start ≤ max c'.start n'.start) ∧
      (∀ e, scanQuiet fuel cq nq = .error e →
          ∀ c' ∈ cq, ∀ n' ∈ nq, ¬JointQuietOk c' n') := by
  intro fuel
  induction fuel with
  | zero =>
    intro cq nq hfuel hw1 hw2 hs1 hs2
    cases cq with
    | nil =>
      refine ⟨fun c n h => by simp [scanQuiet] at h, fun e _ c' hc' => ?_⟩
      exact absurd hc' (List.not_mem_nil c')
    | cons c cs =>
      cases nq with
      | nil =>
        refine ⟨fun c n h => by simp [scanQuiet] at h,
          fun e _ c' _ n' hn' => ?_⟩
        exact absurd hn' (List.not_mem_nil n')
      | cons n ns => simp at hfuel
  | succ fuel ih =>
    intro cq nq hfuel hw1 hw2 hs1 hs2
    cases cq with
    | nil =>
      refine ⟨fun c n h => by simp [scanQuiet] at h, fun e _ c' hc' => ?_⟩
      exact absurd hc' (List.not_mem_nil c')
    | cons c cs =>
      cases nq with
      | nil =>
        refine ⟨fun c n h => by simp [scanQuiet] at h,
          fun e _ c' _ n' hn' => ?_⟩
        exact absurd hn' (List.not_mem_nil n')
      | cons n ns =>
        have hc_first : ∀ c' ∈ c :: cs, c.start ≤ c'.start := by
          intro c' hc'
          rcases List.mem_cons.mp hc' with rfl | hc'
          · exact le_refl _
          · exact (List.pairwise_cons.mp hs1).1 c' hc'
        have hn_first : ∀ n' ∈ n :: ns, n.start ≤ n'.start := by
          intro n' hn'
          rcases List.mem_cons.mp hn' with rfl | hn'
          · exact le_refl _
          · exact (List.pairwise_cons.mp hs2).1 n' hn'
        by_cases hns : n.start ≤ c.start
        · by_cases hcond : c.start + REQUIRED_QUIET_WINDOW ≤ n.stop
          · -- direct hit
            have heval : scanQuiet (fuel + 1) (c :: cs) (n :: ns) = .ok (c, n) := by
              simp [scanQuiet, hns, hcond]
            refine ⟨fun c₀ n₀ h => ?_, fun e h => ?_⟩
            · rw [heval] at h
              injection h with h
              injection h with h1 h2
              subst h1; subst h2
              refine ⟨List.mem_cons_self c cs, List.mem_cons_self n ns, ?_, ?_⟩
              · have hmax : max c.start n.start = c.start := max_eq_left hns
                have hclen : REQUIRED_QUIET_WINDOW ≤ c.stop - c.start :=
                  hw1 c (List.mem_cons_self c cs)
                rw [JointQuietOk, hmax]
                exact le_min (by linarith) hcond
              · intro c' hc' n' hn' _
                exact max_le_max (hc_first c' hc') (hn_first n' hn')
            · rw [heval] at h
              cases h
          · -- the network candidate can never work again: drop it
            have heval : scanQuiet (fuel + 1) (c :: cs) (n :: ns) =
                scanQuiet fuel (c :: cs) ns := by
              simp [scanQuiet, hns, hcond]
            have hdead : ∀ c' ∈ c :: cs, ¬JointQuietOk c' n := by
              intro c' hc' hJ
              rw [JointQuietOk] at hJ
              have h1 : c.start ≤ max c'.start n.start :=
                le_trans (hc_first c' hc') (le_max_left _ _)
              have h2 : min c'.stop n.stop ≤ n.stop := min_le_right _ _
              exact hcond (by linarith)
            have hrec := ih (c :: cs) ns
              (by simp at hfuel ⊢; omega)
              hw1 (fun p hp => hw2 p (List.mem_cons_of_mem n hp)) hs1
              (List.Pairwise.of_cons hs2)
            refine ⟨fun c₀ n₀ h => ?_, fun e h => ?_⟩
            · rw [heval] at h
              obtain ⟨hm1, hm2, hJ, hmin⟩ := hrec.1 c₀ n₀ h
              refine ⟨hm1, List.mem_cons_of_mem n hm2, hJ, ?_⟩
              intro c' hc' n' hn' hJ'
              rcases List.mem_cons.mp hn' with rfl | hn'
              · exact absurd hJ' (hdead c' hc')
              · exact hmin c' hc' n' hn' hJ'
            · rw [heval] at h
              intro c' hc' n' hn' hJ'
              rcases List.mem_cons.mp hn' with rfl | hn'
              · exact hdead c' hc' hJ'
              · exact hrec.2 e h c' hc' n' hn' hJ'
        · by_cases hcond : n.start + REQUIRED_QUIET_WINDOW ≤ c.stop
          · have heval : scanQuiet (fuel + 1) (c :: cs) (n :: ns) = .ok (c, n) := by
              simp [scanQuiet, hns, hcond]
            refine ⟨fun c₀ n₀ h => ?_, fun e h => ?_⟩
            · rw [heval] at h
              injection h with h
              injection h with h1 h2
              subst h1; subst h2
              refine ⟨List.mem_cons_self c cs, List.mem_cons_self n ns, ?_, ?_⟩
              · have hmax : max c.start n.start = n.start :=
                  max_eq_right (le_of_not_le hns)
                have hnlen : REQUIRED_QUIET_WINDOW ≤ n.stop - n.start :=
                  hw2 n (List.mem_cons_self n ns)
                rw [JointQuietOk, hmax]
                exact le_min hcond (by linarith)
              · intro c' hc' n' hn' _
                exact max_le_max (hc_first c' hc') (hn_first n' hn')
            · rw [heval] at h
              cases h
          · -- the CPU candidate can never work again: drop it
            have heval : scanQuiet (fuel + 1) (c :: cs) (n :: ns) =
                scanQuiet fuel cs (n :: ns) := by
              simp [scanQuiet, hns, hcond]
            have hdead : ∀ n' ∈ n :: ns, ¬JointQuietOk c n' := by
              intro n' hn' hJ
              rw [JointQuietOk] at hJ
              have h1 : n.start ≤ max c.start n'.start :=
                le_trans (hn_first n' hn') (le_max_right _ _)
              have h2 : min c.stop n'.stop ≤ c.stop := min_le_left _ _
              exact hcond (by linarith)
            have hrec := ih cs (n :: ns)
              (by simp at hfuel ⊢; omega)
              (fun p hp => hw1 p (List.mem_cons_of_mem c hp)) hw2
              (List.Pairwise.of_cons hs1) hs2
            refine ⟨fun c₀ n₀ h => ?_, fun e h => ?_⟩
            · rw [heval] at h
              obtain ⟨hm1, hm2, hJ, hmin⟩ := hrec.1 c₀ n₀ h
              refine ⟨List.mem_cons_of_mem c hm1, hm2, hJ, ?_⟩
              intro c' hc' n' hn' hJ'
              rcases List.mem_cons.mp hc' with rfl | hc'
              · exact absurd hJ' (hdead n' hn')
              · exact hmin c' hc' n' hn' hJ'
            · rw [heval] at h
              intro c' hc' n' hn' hJ'
              rcases List.mem_cons.mp hc' with rfl | hc'
              · exact hdead n' hn' hJ'
              · exact hrec.2 e h c' hc' n' hn' hJ'

theorem mem_insertBoundary {x b : TimeBoundary} :
    ∀ {l : List TimeBoundary}, x ∈ insertBoundary b l ↔ x = b ∨ x ∈ l := by
  intro l
  induction l with
  | nil => simp [insertBoundary]
  | cons c cs ih =>
    simp only [insertBoundary]
    split
    · simp [List.mem_cons]
    · simp only [List.mem_cons, ih]
      tauto

theorem insertBoundary_pairwise {b : TimeBoundary} :
    ∀ {l : List TimeBoundary},
      List.Pairwise (fun a c => a.time ≤ c.time) l →
      List.Pairwise (fun a c => a.time ≤ c.time) (insertBoundary b l) := by
  intro l
  induction l with
  | nil => intro _; simp [insertBoundary]
  | cons c cs ih =>
    intro h
    rcases List.pairwise_cons.mp h with ⟨hc, hcs⟩
    simp only [insertBoundary]
    split
    · rename_i hbc
      refine List.pairwise_cons.mpr ⟨?_, h⟩
      intro x hx
      rcases List.mem_cons.mp hx with rfl | hx
      · exact hbc
      · exact le_trans hbc (hc x hx)
    · rename_i hbc
      push_neg at hbc
      refine List.pairwise_cons.mpr ⟨?_, ih hcs⟩
      intro x hx
      rcases mem_insertBoundary.mp hx with rfl | hx
      · exact le_of_lt hbc
      · exact hc x hx

theorem sortBoundaries_pairwise :
    ∀ l, List.Pairwise (fun a c => a.time ≤ c.time) (sortBoundaries l)
  | [] => by simp [sortBoundaries]
  | b :: bs => by
    simp only [sortBoundaries]
    exact insertBoundary_pairwise (sortBoundaries_pairwise bs)

theorem mem_sortBoundaries {x : TimeBoundary} :
    ∀ {l : List TimeBoundary}, x ∈ sortBoundaries l ↔ x ∈ l := by
  intro l
  induction l with
  | nil => simp [sortBoundaries]
  | cons b bs ih =>
    simp [sortBoundaries, mem_insertBoundary, ih]

theorem recordBoundaries_time_nonneg (records : List NetworkRecordQ)
    (hrec : ∀ q ∈ records, 0 ≤ q.startTime ∧ q.startTime ≤ q.endTime) :
    ∀ b ∈ recordBoundaries records, 0 ≤ b.time := by
  have hgen : ∀ (l : List NetworkRecordQ),
      (∀ q ∈ l, 0 ≤ q.startTime ∧ q.startTime ≤ q.endTime) →
      ∀ b ∈ l.foldr (fun r acc =>
          (⟨r.startTime * 1000, true⟩ : TimeBoundary) ::
            (⟨r.endTime * 1000, false⟩ : TimeBoundary) :: acc) [],
        0 ≤ b.time := by
    intro l
    induction l with
    | nil => intro _ b hb; cases hb
    | cons q l ih =>
      intro hq b hb
      rcases List.mem_cons.mp hb with rfl | hb
      · show (0 : ℚ) ≤ q.startTime * 1000
        exact mul_nonneg (hq q (List.mem_cons_self q l)).1 (by norm_num)
      rcases List.mem_cons.mp hb with rfl | hb
      · show (0 : ℚ) ≤ q.endTime * 1000
        have h1 := (hq q (List.mem_cons_self q l)).1
        have h2 := (hq q (List.mem_cons_self q l)).2
        exact mul_nonneg (le_trans h1 h2) (by norm_num)
      · exact ih (fun x hx => hq x (List.mem_cons_of_mem q hx)) b hb
  intro b hb
  exact hgen (records.filter validQuietRequest)
    (fun q hq => hrec q (List.mem_of_mem_filter hq)) b hb

theorem networkSweep_sorted :
    ∀ (bs : List TimeBoundary) (inflight : Int) (qs tEnd : ℚ),
      List.Pairwise (fun a b => a.time ≤ b.time) bs →
      (∀ b ∈ bs, qs ≤ b.time) →
      PeriodsSortedByStart (networkSweep bs inflight qs tEnd) ∧
        ∀ p ∈ networkSweep bs inflight qs tEnd, qs ≤ p.start := by
  intro bs
  induction bs with
  | nil =>
    intro inflight qs tEnd _ _
    simp only [networkSweep]
    split
    · exact ⟨List.pairwise_singleton _ _, by
        intro p hp
        rcases List.mem_singleton.mp hp with rfl
        exact le_refl _⟩
    · exact ⟨List.Pairwise.nil, by intro p hp; cases hp⟩
  | cons b bs ih =>
    intro inflight qs tEnd hpw hqs
    rcases List.pairwise_cons.mp hpw with ⟨hb, hbs⟩
    have hqs' : ∀ x ∈ bs, qs ≤ x.time :=
      fun x hx => hqs x (List.mem_cons_of_mem b hx)
    simp only [networkSweep]
    split
    · split
      · -- quiet period closes at this boundary
        have hrec := ih (inflight + 1) qs tEnd hbs hqs'
        constructor
        · exact List.pairwise_cons.mpr ⟨fun p hp => hrec.2 p hp, hrec.1⟩
        · intro p hp
          rcases List.mem_cons.mp hp with rfl | hp
          · exact le_refl _
          · exact hrec.2 p hp
      · exact ih (inflight + 1) qs tEnd hbs hqs'
    · split
      · -- quiet period reopens at this boundary
        have hrec := ih (inflight - 1) b.time tEnd hbs hb
        exact ⟨hrec.1, fun p hp =>
          le_trans (hqs b (List.mem_cons_self b bs)) (hrec.2 p hp)⟩
      · exact ih (inflight - 1) qs tEnd hbs hqs'

theorem cpuGaps_sorted :
    ∀ (tasks : List CpuTaskPeriod) (o tEnd : ℚ),
      List.Chain' (fun t u => t.stop ≤ u.start) tasks →
      (∀ t ∈ tasks, t.start ≤ t.stop) →
      PeriodsSortedByStart (cpuGaps tasks o tEnd) ∧
        ∀ p ∈ cpuGaps tasks o tEnd, ∀ t, tasks.head? = some t →
          t.stop + o ≤ p.start := by
  intro tasks
  induction tasks with
  | nil =>
    intro o tEnd _ _
    exact ⟨List.Pairwise.nil, by intro p hp; cases hp⟩
  | cons t rest ih =>
    intro o tEnd hchain hlen
    cases rest with
    | nil =>
      refine ⟨List.pairwise_singleton _ _, ?_⟩
      intro p hp t' ht'
      rcases List.mem_singleton.mp hp with rfl
      injection ht' with ht'
      subst ht'
      exact le_refl _
    | cons u rest2 =>
      have hchain' : List.Chain' (fun a b => a.stop ≤ b.start) (u :: rest2) :=
        hchain.tail
      have htu : t.stop ≤ u.start := List.chain'_cons.mp hchain |>.1
      have hulen : u.start ≤ u.stop := hlen u (by simp)
      have hrec := ih o tEnd hchain'
        (fun x hx => hlen x (List.mem_cons_of_mem t hx))
      constructor
      · refine List.pairwise_cons.mpr ⟨?_, hrec.1⟩
        intro p hp
        have := hrec.2 p hp u rfl
        simp only
        linarith
      · intro p hp t' ht'
        injection ht' with ht'
        subst ht'
        rcases List.mem_cons.mp hp with rfl | hp
        · exact le_refl _
        · have := hrec.2 p hp u rfl
          linarith

theorem findCPUQuietPeriods_sorted (tasks : List CpuTaskPeriod)
    (tt : TraceTimestamps)
    (hchain : List.Chain' (fun t u => t.stop ≤ u.start) tasks)
    (hlen : ∀ t ∈ tasks, t.start ≤ t.stop)
    (h0 : ∀ t ∈ tasks, 0 ≤ t.start) (ho : 0 ≤ tt.timeOrigin) :
    PeriodsSortedByStart (findCPUQuietPeriods tasks tt) := by
  have ho' : (0 : ℚ) ≤ tt.timeOrigin / 1000 := div_nonneg ho (by norm_num)
  cases tasks with
  | nil => exact List.pairwise_singleton _ _
  | cons t rest =>
    simp only [findCPUQuietPeriods]
    refine List.pairwise_cons.mpr ⟨?_, (cpuGaps_sorted (t :: rest) _ _ hchain hlen).1⟩
    intro p hp
    have hstop := (cpuGaps_sorted (t :: rest) _ _ hchain hlen).2 p hp t rfl
    have h1 : 0 ≤ t.start := h0 t (by simp)
    have h2 : t.start ≤ t.stop := hlen t (by simp)
    simp only
    linarith

theorem filter_long_window {fcp : ℚ} {l : List TimePeriod} :
    ∀ p ∈ l.filter (isLongEnoughQuietPeriod fcp),
      REQUIRED_QUIET_WINDOW ≤ p.stop - p.start ∧
        fcp + REQUIRED_QUIET_WINDOW < p.stop := by
  intro p hp
  have h := List.of_mem_filter hp
  simp only [isLongEnoughQuietPeriod, Bool.and_eq_true, decide_eq_true_eq] at h
  exact ⟨h.2, h.1⟩

/-- C4 (counterexample): three simultaneous GET requests from 6 to 7 seconds
make the network track busy during 6000 to 7000 milliseconds; the joint quiet
window is found inside the first network quiet period, which ends at 6000
milliseconds, not at the trace end of 20000 milliseconds.  So a returned
quiet period is not always extended to the trace end. -/
theorem quiet_scan_period_not_extended :
    findOverlappingQuietPeriods []
        [⟨false, 200, "GET", true, 6, 7⟩, ⟨false, 200, "GET", true, 6, 7⟩,
          ⟨false, 200, "GET", true, 6, 7⟩]
        ⟨0, 100000, 20000000⟩ =
      .ok ⟨⟨0, 20000⟩, ⟨0, 6000⟩, [⟨0, 20000⟩],
        [⟨0, 6000⟩, ⟨7000, 20000⟩]⟩ ∧
      ((⟨0, 6000⟩ : TimePeriod).stop ≠ (20000000 : ℚ) / 1000) :=
  ⟨by
      norm_num [findOverlappingQuietPeriods, findNetworkQuietPeriods,
        findCPUQuietPeriods, recordBoundaries, sortBoundaries, insertBoundary,
        networkSweep, cpuGaps, isLongEnoughQuietPeriod, scanQuiet,
        REQUIRED_QUIET_WINDOW, ALLOWED_CONCURRENT_REQUESTS, validQuietRequest,
        List.filter, List.isEmpty],
    by norm_num⟩

/-- C4 (amended): on well-formed inputs, whenever the scan succeeds it
returns a CPU quiet period and a network quiet period drawn from the
computed per-track quiet periods, both reaching past the reference paint
plus the required window, whose joint overlap lasts at least the required
window; and among all such pairs the returned one is the first: its joint
window starts no later than that of any other overlapping pair.  The
returned periods need not be extended to the trace end. -/
theorem findOverlapping_first_pair (tasks : List CpuTaskPeriod)
    (records : List NetworkRecordQ) (tt : TraceTimestamps)
    (r : OverlappingQuietPeriods)
    (hchain : List.Chain' (fun t u => t.stop ≤ u.start) tasks)
    (htlen : ∀ t ∈ tasks, t.start ≤ t.stop)
    (ht0 : ∀ t ∈ tasks, 0 ≤ t.start)
    (ho : 0 ≤ tt.timeOrigin)
    (hq : ∀ q ∈ records, 0 ≤ q.startTime ∧ q.startTime ≤ q.endTime)
    (hres : findOverlappingQuietPeriods tasks records tt = .ok r) :
    r.cpuQuietPeriod ∈ r.cpuQuietPeriods ∧
      r.networkQuietPeriod ∈ r.networkQuietPeriods ∧
      tt.firstContentfulPaint / 1000 + REQUIRED_QUIET_WINDOW <
        r.cpuQuietPeriod.stop ∧
      tt.firstContentfulPaint / 1000 + REQUIRED_QUIET_WINDOW <
        r.networkQuietPeriod.stop ∧
      JointQuietOk r.cpuQuietPeriod r.networkQuietPeriod ∧
      ∀ c ∈ r.cpuQuietPeriods, ∀ n ∈ r.networkQuietPeriods,
        JointQuietOk c n →
          max r.cpuQuietPeriod.start r.networkQuietPeriod.start ≤
            max c.start n.start := by
  simp only [findOverlappingQuietPeriods] at hres
  set fcpMs := tt.firstContentfulPaint / 1000 with hfcpMs
  set nqp := (findNetworkQuietPeriods records tt).filter
    (isLongEnoughQuietPeriod fcpMs) with hnqp
  set cqp := (findCPUQuietPeriods tasks tt).filter
    (isLongEnoughQuietPeriod fcpMs) with hcqp
  have hsorted_c : PeriodsSortedByStart cqp := by
    rw [hcqp]
    exact List.Pairwise.filter _
      (findCPUQuietPeriods_sorted tasks tt hchain htlen ht0 ho)
  have hsorted_n : PeriodsSortedByStart nqp := by
    rw [hnqp]
    refine List.Pairwise.filter _ ?_
    refine (networkSweep_sorted _ 0 0 _ (sortBoundaries_pairwise _) ?_).1
    intro b hb
    exact recordBoundaries_time_nonneg records hq b (mem_sortBoundaries.mp hb)
  split at hres
  · cases hres
  · split at hres
    · rename_i c n heq
      injection hres with hres
      subst hres
      have hspec := (scanQuiet_spec (cqp.length + nqp.length) cqp nqp
        (le_refl _) (fun p hp => (filter_long_window p hp).1)
        (fun p hp => (filter_long_window p hp).1)
        hsorted_c hsorted_n).1 c n heq
      obtain ⟨hc, hn, hJ, hmin⟩ := hspec
      exact ⟨hc, hn, (filter_long_window c hc).2, (filter_long_window n hn).2,
        hJ, hmin⟩
    · cases hres

/-- Witness for the amended C4 at the counterexample input: the scan
succeeds and returns the first overlapping pair. -/
theorem findOverlapping_first_pair_witness :
    (∀ q ∈ ([⟨false, 200, "GET", true, 6, 7⟩, ⟨false, 200, "GET", true, 6, 7⟩,
          ⟨false, 200, "GET", true, 6, 7⟩] : List NetworkRecordQ),
        0 ≤ q.startTime ∧ q.startTime ≤ q.endTime) ∧
      findOverlappingQuietPeriods []
          [⟨false, 200, "GET", true, 6, 7⟩, ⟨false, 200, "GET", true, 6, 7⟩,
            ⟨false, 200, "GET", true, 6, 7⟩]
          ⟨0, 100000, 20000000⟩ =
        .ok ⟨⟨0, 20000⟩, ⟨0, 6000⟩, [⟨0, 20000⟩],
          [⟨0, 6000⟩, ⟨7000, 20000⟩]⟩ ∧
      ((⟨0, 20000⟩ : TimePeriod) ∈ [(⟨0, 20000⟩ : TimePeriod)] ∧
        (⟨0, 6000⟩ : TimePeriod) ∈
          [(⟨0, 6000⟩ : TimePeriod), ⟨7000, 20000⟩] ∧
        (100000 : ℚ) / 1000 + REQUIRED_QUIET_WINDOW <
          (⟨0, 20000⟩ : TimePeriod).stop ∧
        (100000 : ℚ) / 1000 + REQUIRED_QUIET_WINDOW <
          (⟨0, 6000⟩ : TimePeriod).stop ∧
        JointQuietOk ⟨0, 20000⟩ ⟨0, 6000⟩ ∧
        ∀ c ∈ [(⟨0, 20000⟩ : TimePeriod)],
          ∀ n ∈ [(⟨0, 6000⟩ : TimePeriod), ⟨7000, 20000⟩],
            JointQuietOk c n →
              max (⟨0, 20000⟩ : TimePeriod).start
                  (⟨0, 6000⟩ : TimePeriod).start ≤
                max c.start n.start) := by
  have hq : ∀ q ∈ ([⟨false, 200, "GET", true, 6, 7⟩,
        ⟨false, 200, "GET", true, 6, 7⟩,
        ⟨false, 200, "GET", true, 6, 7⟩] : List NetworkRecordQ),
      0 ≤ q.startTime ∧ q.startTime ≤ q.endTime := by
    intro q hqm
    fin_cases hqm <;> norm_num
  have hres : findOverlappingQuietPeriods []
      [⟨false, 200, "GET", true, 6, 7⟩, ⟨false, 200, "GET", true, 6, 7⟩,
        ⟨false, 200, "GET", true, 6, 7⟩]
      ⟨0, 100000, 20000000⟩ =
      .ok ⟨⟨0, 20000⟩, ⟨0, 6000⟩, [⟨0, 20000⟩],
        [⟨0, 6000⟩, ⟨7000, 20000⟩]⟩ := by
    norm_num [findOverlappingQuietPeriods, findNetworkQuietPeriods,
      findCPUQuietPeriods, recordBoundaries, sortBoundaries, insertBoundary,
      networkSweep, cpuGaps, isLongEnoughQuietPeriod, scanQuiet,
      REQUIRED_QUIET_WINDOW, ALLOWED_CONCURRENT_REQUESTS, validQuietRequest,
      List.filter, List.isEmpty]
  exact ⟨hq, hres,
    findOverlapping_first_pair [] _ ⟨0, 100000, 20000000⟩ _
      (by simp) (by simp) (by simp) (by norm_num) hq hres⟩

/-- The network-never-quiet scenario of the shipped test: three requests in
flight during 2000 to 8000 milliseconds exceed the two-request allowance, and
the remaining network quiet periods are all unusable, while the CPU track is
quiet over the whole trace; the scan reports the network track as the one
that never quieted. -/
theorem quiet_scan_no_network_idle :
    findOverlappingQuietPeriods []
        [generateNetworkRecord 220023532 1400 1900 false 200 "GET" true,
          generateNetworkRecord 220023532 2000 9000 false 200 "GET" true,
          generateNetworkRecord 220023532 2000 8000 false 200 "GET" true,
          generateNetworkRecord 220023532 2000 8500 false 200 "GET" true]
        ⟨220023532, 222523532, 230023532⟩ =
      .error .NO_NETWORK_IDLE_PERIOD := by
  norm_num [findOverlappingQuietPeriods, findNetworkQuietPeriods,
    findCPUQuietPeriods, recordBoundaries, sortBoundaries, insertBoundary,
    networkSweep, cpuGaps, isLongEnoughQuietPeriod, scanQuiet,
    REQUIRED_QUIET_WINDOW, ALLOWED_CONCURRENT_REQUESTS, validQuietRequest,
    generateNetworkRecord, List.filter, List.isEmpty]

/-- The literal too-short trace of the shipped test: the trace ends 5000
milliseconds after the time origin, only 2500 milliseconds past the paint, so
neither track offers a usable period and the scan fails with the generic
error. -/
theorem quiet_scan_trace_ends_at_five_seconds :
    findOverlappingQuietPeriods [] []
        ⟨220023532, 222523532, 225023532⟩ =
      .error .NO_IDLE_PERIOD := by
  norm_num [findOverlappingQuietPeriods, findNetworkQuietPeriods,
    findCPUQuietPeriods, recordBoundaries, sortBoundaries, insertBoundary,
    networkSweep, cpuGaps, isLongEnoughQuietPeriod, scanQuiet,
    REQUIRED_QUIET_WINDOW, ALLOWED_CONCURRENT_REQUESTS, validQuietRequest,
    List.filter, List.isEmpty]

set_option maxHeartbeats 4000000 in
/-- The full first-overlapping-quiet-period scenario of the shipped test
(interactive-test.js): five CPU tasks and nine GET requests; the scan skips
the pre-paint and too-short periods on both tracks and returns the CPU quiet
period from 34000 milliseconds and the network quiet period from 32000
milliseconds, both extended to the 45000 millisecond trace end, with three
usable CPU and two usable network quiet periods.  Literals of the form
58255883 / 250 are absolute milliseconds: 13000 plus the 220023.532
millisecond time origin. -/
theorem quiet_scan_first_overlapping_pair_test :
    findOverlappingQuietPeriods
        [⟨9000, 9900⟩, ⟨11000, 13000⟩, ⟨18500, 22000⟩, ⟨23500, 26000⟩,
          ⟨31500, 34000⟩]
        [generateNetworkRecord 220023532 1400 1900 false 200 "GET" true,
          generateNetworkRecord 220023532 1900 9000 false 200 "GET" true,
          generateNetworkRecord 220023532 11500 18500 false 200 "GET" true,
          generateNetworkRecord 220023532 11500 19000 false 200 "GET" true,
          generateNetworkRecord 220023532 11500 19000 false 200 "GET" true,
          generateNetworkRecord 220023532 11500 19500 false 200 "GET" true,
          generateNetworkRecord 220023532 28000 32000 false 200 "GET" true,
          generateNetworkRecord 220023532 28000 32000 false 200 "GET" true,
          generateNetworkRecord 220023532 28000 35000 false 200 "GET" true]
        ⟨220023532, 230023532, 265023532⟩ =
      .ok ⟨⟨34000 + 220023532 / 1000, 265023532 / 1000⟩,
        ⟨32000 + 220023532 / 1000, 265023532 / 1000⟩,
        [⟨13000 + 220023532 / 1000, 18500 + 220023532 / 1000⟩,
          ⟨26000 + 220023532 / 1000, 31500 + 220023532 / 1000⟩,
          ⟨34000 + 220023532 / 1000, 265023532 / 1000⟩],
        [⟨19000 + 220023532 / 1000, 28000 + 220023532 / 1000⟩,
          ⟨32000 + 220023532 / 1000, 265023532 / 1000⟩]⟩ := by
  have hb : recordBoundaries
      [generateNetworkRecord 220023532 1400 1900 false 200 "GET" true,
        generateNetworkRecord 220023532 1900 9000 false 200 "GET" true,
        generateNetworkRecord 220023532 11500 18500 false 200 "GET" true,
        generateNetworkRecord 220023532 11500 19000 false 200 "GET" true,
        generateNetworkRecord 220023532 11500 19000 false 200 "GET" true,
        generateNetworkRecord 220023532 11500 19500 false 200 "GET" true,
        generateNetworkRecord 220023532 28000 32000 false 200 "GET" true,
        generateNetworkRecord 220023532 28000 32000 false 200 "GET" true,
        generateNetworkRecord 220023532 28000 35000 false 200 "GET" true] =
      [⟨1400 + 220023532 / 1000, true⟩, ⟨1900 + 220023532 / 1000, false⟩,
        ⟨1900 + 220023532 / 1000, true⟩, ⟨9000 + 220023532 / 1000, false⟩,
        ⟨11500 + 220023532 / 1000, true⟩, ⟨18500 + 220023532 / 1000, false⟩,
        ⟨11500 + 220023532 / 1000, true⟩, ⟨19000 + 220023532 / 1000, false⟩,
        ⟨11500 + 220023532 / 1000, true⟩, ⟨19000 + 220023532 / 1000, false⟩,
        ⟨11500 + 220023532 / 1000, true⟩, ⟨19500 + 220023532 / 1000, false⟩,
        ⟨28000 + 220023532 / 1000, true⟩, ⟨32000 + 220023532 / 1000, false⟩,
        ⟨28000 + 220023532 / 1000, true⟩, ⟨32000 + 220023532 / 1000, false⟩,
        ⟨28000 + 220023532 / 1000, true⟩, ⟨35000 + 220023532 / 1000, false⟩] := by
    norm_num [recordBoundaries, validQuietRequest, generateNetworkRecord,
      List.filter]
  have hsort : sortBoundaries
      [(⟨1400 + 220023532 / 1000, true⟩ : TimeBoundary),
        ⟨1900 + 220023532 / 1000, false⟩,
        ⟨1900 + 220023532 / 1000, true⟩, ⟨9000 + 220023532 / 1000, false⟩,
        ⟨11500 + 220023532 / 1000, true⟩, ⟨18500 + 220023532 / 1000, false⟩,
        ⟨11500 + 220023532 / 1000, true⟩, ⟨19000 + 220023532 / 1000, false⟩,
        ⟨11500 + 220023532 / 1000, true⟩, ⟨19000 + 220023532 / 1000, false⟩,
        ⟨11500 + 220023532 / 1000, true⟩, ⟨19500 + 220023532 / 1000, false⟩,
        ⟨28000 + 220023532 / 1000, true⟩, ⟨32000 + 220023532 / 1000, false⟩,
        ⟨28000 + 220023532 / 1000, true⟩, ⟨32000 + 220023532 / 1000, false⟩,
        ⟨28000 + 220023532 / 1000, true⟩, ⟨35000 + 220023532 / 1000, false⟩] =
      [⟨1400 + 220023532 / 1000, true⟩, ⟨1900 + 220023532 / 1000, false⟩,
        ⟨1900 + 220023532 / 1000, true⟩, ⟨9000 + 220023532 / 1000, false⟩,
        ⟨11500 + 220023532 / 1000, true⟩, ⟨11500 + 220023532 / 1000, true⟩,
        ⟨11500 + 220023532 / 1000, true⟩, ⟨11500 + 220023532 / 1000, true⟩,
        ⟨18500 + 220023532 / 1000, false⟩, ⟨19000 + 220023532 / 1000, false⟩,
        ⟨19000 + 220023532 / 1000, false⟩, ⟨19500 + 220023532 / 1000, false⟩,
        ⟨28000 + 220023532 / 1000, true⟩, ⟨28000 + 220023532 / 1000, true⟩,
        ⟨28000 + 220023532 / 1000, true⟩, ⟨32000 + 220023532 / 1000, false⟩,
        ⟨32000 + 220023532 / 1000, false⟩, ⟨35000 + 220023532 / 1000, false⟩] := by
    norm_num [sortBoundaries, insertBoundary]
  have hsweep : networkSweep
      [(⟨1400 + 220023532 / 1000, true⟩ : TimeBoundary),
        ⟨1900 + 220023532 / 1000, false⟩,
        ⟨1900 + 220023532 / 1000, true⟩, ⟨9000 + 220023532 / 1000, false⟩,
        ⟨11500 + 220023532 / 1000, true⟩, ⟨11500 + 220023532 / 1000, true⟩,
        ⟨11500 + 220023532 / 1000, true⟩, ⟨11500 + 220023532 / 1000, true⟩,
        ⟨18500 + 220023532 / 1000, false⟩, ⟨19000 + 220023532 / 1000, false⟩,
        ⟨19000 + 220023532 / 1000, false⟩, ⟨19500 + 220023532 / 1000, false⟩,
        ⟨28000 + 220023532 / 1000, true⟩, ⟨28000 + 220023532 / 1000, true⟩,
        ⟨28000 + 220023532 / 1000, true⟩, ⟨32000 + 220023532 / 1000, false⟩,
        ⟨32000 + 220023532 / 1000, false⟩, ⟨35000 + 220023532 / 1000, false⟩]
      0 0 (265023532 / 1000) =
      [⟨0, 11500 + 220023532 / 1000⟩,
        ⟨19000 + 220023532 / 1000, 28000 + 220023532 / 1000⟩,
        ⟨32000 + 220023532 / 1000, 265023532 / 1000⟩] := rfl
  have hcpu : findCPUQuietPeriods
      [⟨9000, 9900⟩, ⟨11000, 13000⟩, ⟨18500, 22000⟩, ⟨23500, 26000⟩,
        ⟨31500, 34000⟩] ⟨220023532, 230023532, 265023532⟩ =
      [⟨0, 9000 + 220023532 / 1000⟩,
        ⟨9900 + 220023532 / 1000, 11000 + 220023532 / 1000⟩,
        ⟨13000 + 220023532 / 1000, 18500 + 220023532 / 1000⟩,
        ⟨22000 + 220023532 / 1000, 23500 + 220023532 / 1000⟩,
        ⟨26000 + 220023532 / 1000, 31500 + 220023532 / 1000⟩,
        ⟨34000 + 220023532 / 1000, 265023532 / 1000⟩] := by
    norm_num [findCPUQuietPeriods, cpuGaps]
  have hnet : findNetworkQuietPeriods
      [generateNetworkRecord 220023532 1400 1900 false 200 "GET" true,
        generateNetworkRecord 220023532 1900 9000 false 200 "GET" true,
        generateNetworkRecord 220023532 11500 18500 false 200 "GET" true,
        generateNetworkRecord 220023532 11500 19000 false 200 "GET" true,
        generateNetworkRecord 220023532 11500 19000 false 200 "GET" true,
        generateNetworkRecord 220023532 11500 19500 false 200 "GET" true,
        generateNetworkRecord 220023532 28000 32000 false 200 "GET" true,
        generateNetworkRecord 220023532 28000 32000 false 200 "GET" true,
        generateNetworkRecord 220023532 28000 35000 false 200 "GET" true]
      ⟨220023532, 230023532, 265023532⟩ =
      [⟨0, 11500 + 220023532 / 1000⟩,
        ⟨19000 + 220023532 / 1000, 28000 + 220023532 / 1000⟩,
        ⟨32000 + 220023532 / 1000, 265023532 / 1000⟩] := by
    simp only [findNetworkQuietPeriods, hb, hsort]
    exact hsweep
  have hfiltc : List.filter (isLongEnoughQuietPeriod (57505883 / 250))
      [(⟨0, 57255883 / 250⟩ : TimePeriod), ⟨57480883 / 250, 57755883 / 250⟩,
        ⟨58255883 / 250, 59630883 / 250⟩, ⟨60505883 / 250, 60880883 / 250⟩,
        ⟨61505883 / 250, 62880883 / 250⟩, ⟨63505883 / 250, 66255883 / 250⟩] =
      [⟨58255883 / 250, 59630883 / 250⟩, ⟨61505883 / 250, 62880883 / 250⟩,
        ⟨63505883 / 250, 66255883 / 250⟩] := by
    norm_num [isLongEnoughQuietPeriod, REQUIRED_QUIET_WINDOW, List.filter]
  have hfiltn : List.filter (isLongEnoughQuietPeriod (57505883 / 250))
      [(⟨0, 57880883 / 250⟩ : TimePeriod), ⟨59755883 / 250, 62005883 / 250⟩,
        ⟨63005883 / 250, 66255883 / 250⟩] =
      [⟨59755883 / 250, 62005883 / 250⟩, ⟨63005883 / 250, 66255883 / 250⟩] := by
    norm_num [isLongEnoughQuietPeriod, REQUIRED_QUIET_WINDOW, List.filter]
  have hscan : scanQuiet 5
      [(⟨58255883 / 250, 59630883 / 250⟩ : TimePeriod),
        ⟨61505883 / 250, 62880883 / 250⟩, ⟨63505883 / 250, 66255883 / 250⟩]
      [⟨59755883 / 250, 62005883 / 250⟩, ⟨63005883 / 250, 66255883 / 250⟩] =
      .ok (⟨63505883 / 250, 66255883 / 250⟩, ⟨63005883 / 250, 66255883 / 250⟩) := by
    norm_num [scanQuiet, REQUIRED_QUIET_WINDOW]
  norm_num [findOverlappingQuietPeriods, hnet, hcpu, hfiltc, hfiltn, hscan,
    List.isEmpty]

/-! ## The lazy-third-party audit

Embedded from lighthouse-core/audits/lazy-third-party.js.  The external
lookups it calls (thirdPartyWeb.getEntity, thirdPartyWeb.getFirstFacade and
the BootupTime URL attribution) live outside the examined slice and are
passed in as opaque functions.  One structural point of the source matters:
defaultFacadeStat is spread shallowly (the spread copies the references held
in its summary and urlSummaries fields), so every facade entry of the
summaries map shares one summary record and one URL map.  The state below
mirrors that: one shared summary, one shared URL map, and the list of facade
keys inserted so far. -/

namespace LazyThirdParty

/-- Per-facade and per-URL statistics record. -/
structure Summary where
  mainThreadTime : ℚ
  blockingTime : ℚ
  transferSize : ℚ
deriving DecidableEq

/-- A third-party entity, identified by name. -/
structure Entity where
  name : String
deriving DecidableEq

/-- A lazy-loading facade, identified by name. -/
structure Facade where
  name : String
deriving DecidableEq

/-- A network record as consumed by getSummaries. -/
structure NetworkRecordL where
  url : String
  transferSize : ℚ
deriving DecidableEq

/-- A main-thread task; only its self time is consumed by getSummaries. -/
structure TaskNode where
  selfTime : ℚ
deriving DecidableEq

/-- The external lookups used by getSummaries, passed in opaquely:
entity and facade lookup by URL, and the BootupTime URL attribution for a
task. -/
structure ThirdPartyWebCtx where
  getEntity : String → Option Entity
  getFirstFacade : String → Option Facade
  attributableURL : TaskNode → String

/-- The zero statistics record (defaultStat in the source). -/
def defaultStat : Summary := ⟨0, 0, 0⟩

/-- Lookup in the URL map. -/
def urlLookup (m : List (String × Summary)) (url : String) : Option Summary :=
  match m with
  | [] => none
  | (u, s) :: rest => if u = url then some s else urlLookup rest url

/-- Map.set of the URL map: an existing key keeps its position, a new key is
appended. -/
def urlUpdate (m : List (String × Summary)) (url : String) (s : Summary) :
    List (String × Summary) :=
  match m with
  | [] => [(url, s)]
  | (u, s₀) :: rest =>
    if u = url then (url, s) :: rest else (u, s₀) :: urlUpdate rest url s

/-- The guard of both loops: continue only when the URL has a facade and an
entity and the entity is not the main entity. -/
def facadeApplicable (ctx : ThirdPartyWebCtx) (mainEntity : Option Entity)
    (url : String) : Option Facade :=
  match ctx.getFirstFacade url, ctx.getEntity url with
  | some f, some e =>
    match mainEntity with
    | some me => if e.name = me.name then none else some f
    | none => some f
  | _, _ => none

/-- State threaded through both loops: the single shared summary record, the
single shared URL map, and the facade keys inserted so far. -/
structure SummariesState where
  sharedSummary : Summary
  sharedUrlSummaries : List (String × Summary)
  facades : List Facade
deriving DecidableEq

/-- One iteration of the network-records loop: adds the transfer size to the
shared summary and to the entry of the request URL, and records the
facade key. -/
def networkStep (ctx : ThirdPartyWebCtx) (mainEntity : Option Entity)
    (st : SummariesState) (req : NetworkRecordL) : SummariesState :=
  match facadeApplicable ctx mainEntity req.url with
  | none => st
  | some f =>
    let s := { st.sharedSummary with
      transferSize := st.sharedSummary.transferSize + req.transferSize }
    let urlStats := (urlLookup st.sharedUrlSummaries req.url).getD defaultStat
    let urlStats' := { urlStats with
      transferSize := urlStats.transferSize + req.transferSize }
    { sharedSummary := s
      sharedUrlSummaries := urlUpdate st.sharedUrlSummaries req.url urlStats'
      facades := if f ∈ st.facades then st.facades else st.facades ++ [f] }

/-- One iteration of the main-thread-tasks loop: the task duration is its
self time scaled by the CPU multiplier, its blocking time is the part of the
scaled duration beyond 50 milliseconds, clamped at zero; both are added to
the shared summary and to the entry of the attributed URL. -/
def taskStep (ctx : ThirdPartyWebCtx) (mainEntity : Option Entity)
    (cpuMultiplier : ℚ) (st : SummariesState) (task : TaskNode) :
    SummariesState :=
  match facadeApplicable ctx mainEntity (ctx.attributableURL task) with
  | none => st
  | some f =>
    let url := ctx.attributableURL task
    let taskDuration := task.selfTime * cpuMultiplier
    let blocking := max (taskDuration - 50) 0
    let s := { st.sharedSummary with
      mainThreadTime := st.sharedSummary.mainThreadTime + taskDuration
      blockingTime := st.sharedSummary.blockingTime + blocking }
    let urlStats := (urlLookup st.sharedUrlSummaries url).getD defaultStat
    let urlStats' := { urlStats with
      mainThreadTime := urlStats.mainThreadTime + taskDuration
      blockingTime := urlStats.blockingTime + blocking }
    { sharedSummary := s
      sharedUrlSummaries := urlUpdate st.sharedUrlSummaries url urlStats'
      facades := if f ∈ st.facades then st.facades else st.facades ++ [f] }

/-- getSummaries of lazy-third-party.js: fold the network records, then the
main-thread tasks. -/
def getSummaries (ctx : ThirdPartyWebCtx)
    (networkRecords : List NetworkRecordL) (mainThreadTasks : List TaskNode)
    (cpuMultiplier : ℚ) (mainEntity : Option Entity) : SummariesState :=
  mainThreadTasks.foldl (taskStep ctx mainEntity cpuMultiplier)
    (networkRecords.foldl (networkStep ctx mainEntity)
      ⟨defaultStat, [], []⟩)

/-- View of the returned map: every recorded facade is sent to the shared
summary and shared URL map. -/
def facadeSummary (st : SummariesState) (f : Facade) :
    Option (Summary × List (String × Summary)) :=
  if f ∈ st.facades then some (st.sharedSummary, st.sharedUrlSummaries)
  else none

theorem urlLookup_urlUpdate (m : List (String × Summary)) (url : String)
    (s : Summary) : urlLookup (urlUpdate m url s) url = some s := by
  induction m with
  | nil => simp [urlUpdate, urlLookup]
  | cons e rest ih =>
    obtain ⟨u, s₀⟩ := e
    simp only [urlUpdate]
    split
    · simp [urlLookup]
    · rename_i hne
      simp only [urlLookup, if_neg hne]
      exact ih

theorem mem_urlUpdate {e : String × Summary} (m : List (String × Summary))
    (url : String) (s : Summary) :
    e ∈ urlUpdate m url s → e = (url, s) ∨ e ∈ m := by
  induction m with
  | nil => simp [urlUpdate]
  | cons e₀ rest ih =>
    obtain ⟨u, s₀⟩ := e₀
    simp only [urlUpdate]
    split
    · intro h
      rcases List.mem_cons.mp h with rfl | h
      · exact Or.inl rfl
      · exact Or.inr (List.mem_cons_of_mem _ h)
    · intro h
      rcases List.mem_cons.mp h with rfl | h
      · exact Or.inr (List.mem_cons_self _ _)
      · rcases ih h with h | h
        · exact Or.inl h
        · exact Or.inr (List.mem_cons_of_mem _ h)

theorem urlLookup_mem {m : List (String × Summary)} {url : String}
    {s : Summary} (h : urlLookup m url = some s) : (url, s) ∈ m := by
  induction m with
  | nil => simp [urlLookup] at h
  | cons e rest ih =>
    obtain ⟨u, s₀⟩ := e
    simp only [urlLookup] at h
    split at h
    · rename_i heq
      injection h with h
      subst h; subst heq
      exact List.mem_cons_self _ _
    · exact List.mem_cons_of_mem _ (ih h)

/-- Invariant: the shared blocking time and every URL entry blocking time are
nonnegative. -/
def StateNonneg (st : SummariesState) : Prop :=
  0 ≤ st.sharedSummary.blockingTime ∧
    ∀ e ∈ st.sharedUrlSummaries, 0 ≤ e.2.blockingTime

theorem lookup_blockingTime_nonneg {st : SummariesState} (h : StateNonneg st)
    (url : String) :
    0 ≤ ((urlLookup st.sharedUrlSummaries url).getD defaultStat).blockingTime := by
  cases hl : urlLookup st.sharedUrlSummaries url with
  | none => simp [defaultStat]
  | some s => simpa using h.2 (url, s) (urlLookup_mem hl)

theorem networkStep_nonneg (ctx : ThirdPartyWebCtx)
    (mainEntity : Option Entity) (st : SummariesState) (req : NetworkRecordL)
    (h : StateNonneg st) : StateNonneg (networkStep ctx mainEntity st req) := by
  simp only [networkStep]
  split
  · exact h
  · refine ⟨h.1, ?_⟩
    intro e he
    rcases mem_urlUpdate _ _ _ he with rfl | he
    · simpa using lookup_blockingTime_nonneg h req.url
    · exact h.2 e he

theorem taskStep_nonneg (ctx : ThirdPartyWebCtx) (mainEntity : Option Entity)
    (cpuMultiplier : ℚ) (st : SummariesState) (task : TaskNode)
    (h : StateNonneg st) :
    StateNonneg (taskStep ctx mainEntity cpuMultiplier st task) := by
  simp only [taskStep]
  split
  · exact h
  · constructor
    · have := h.1
      have hb : (0 : ℚ) ≤ max (task.selfTime * cpuMultiplier - 50) 0 :=
        le_max_right _ _
      simp only
      linarith
    · intro e he
      rcases mem_urlUpdate _ _ _ he with rfl | he
      · have := lookup_blockingTime_nonneg h (ctx.attributableURL task)
        have hb : (0 : ℚ) ≤ max (task.selfTime * cpuMultiplier - 50) 0 :=
          le_max_right _ _
        simp only
        linarith
      · exact h.2 e he

theorem getSummaries_nonneg (ctx : ThirdPartyWebCtx)
    (networkRecords : List NetworkRecordL) (mainThreadTasks : List TaskNode)
    (cpuMultiplier : ℚ) (mainEntity : Option Entity) :
    StateNonneg
      (getSummaries ctx networkRecords mainThreadTasks cpuMultiplier
        mainEntity) := by
  have hfold1 : ∀ (l : List NetworkRecordL) (st : SummariesState),
      StateNonneg st → StateNonneg (l.foldl (networkStep ctx mainEntity) st) := by
    intro l
    induction l with
    | nil => exact fun st h => h
    | cons r rest ih =>
      intro st h
      exact ih _ (networkStep_nonneg ctx mainEntity st r h)
  have hfold2 : ∀ (l : List TaskNode) (st : SummariesState),
      StateNonneg st →
        StateNonneg (l.foldl (taskStep ctx mainEntity cpuMultiplier) st) := by
    intro l
    induction l with
    | nil => exact fun st h => h
    | cons t rest ih =>
      intro st h
      exact ih _ (taskStep_nonneg ctx mainEntity cpuMultiplier st t h)
  exact hfold2 _ _ (hfold1 _ _ ⟨le_refl 0, by intro e he; cases he⟩)

/-- C10: a main-thread task passing the facade guard contributes exactly
max(selfTime times the CPU multiplier minus 50, 0) of blocking time to the
shared facade summary and to its attributed URL entry; a task whose scaled
duration is at most 50 milliseconds therefore contributes none; and the
accumulated blocking times of getSummaries are never negative. -/
theorem getSummaries_blockingTime (ctx : ThirdPartyWebCtx)
    (mainEntity : Option Entity) (cpuMultiplier : ℚ) (st : SummariesState)
    (task : TaskNode) (f : Facade)
    (happ : facadeApplicable ctx mainEntity (ctx.attributableURL task) =
      some f) :
    ((taskStep ctx mainEntity cpuMultiplier st task).sharedSummary.blockingTime =
        st.sharedSummary.blockingTime +
          max (task.selfTime * cpuMultiplier - 50) 0 ∧
      ((urlLookup
            (taskStep ctx mainEntity cpuMultiplier st task).sharedUrlSummaries
            (ctx.attributableURL task)).getD defaultStat).blockingTime =
        ((urlLookup st.sharedUrlSummaries (ctx.attributableURL task)).getD
            defaultStat).blockingTime +
          max (task.selfTime * cpuMultiplier - 50) 0) ∧
    (task.selfTime * cpuMultiplier ≤ 50 →
      (taskStep ctx mainEntity cpuMultiplier st task).sharedSummary.blockingTime =
        st.sharedSummary.blockingTime) ∧
    (∀ (networkRecords : List NetworkRecordL)
        (mainThreadTasks : List TaskNode),
      0 ≤ (getSummaries ctx networkRecords mainThreadTasks cpuMultiplier
            mainEntity).sharedSummary.blockingTime ∧
        ∀ e ∈ (getSummaries ctx networkRecords mainThreadTasks cpuMultiplier
            mainEntity).sharedUrlSummaries, 0 ≤ e.2.blockingTime) := by
  have hstep : (taskStep ctx mainEntity cpuMultiplier st task).sharedSummary.blockingTime =
      st.sharedSummary.blockingTime +
        max (task.selfTime * cpuMultiplier - 50) 0 := by
    simp [taskStep, happ]
  have hurl : ((urlLookup
        (taskStep ctx mainEntity cpuMultiplier st task).sharedUrlSummaries
        (ctx.attributableURL task)).getD defaultStat).blockingTime =
      ((urlLookup st.sharedUrlSummaries (ctx.attributableURL task)).getD
          defaultStat).blockingTime +
        max (task.selfTime * cpuMultiplier - 50) 0 := by
    simp [taskStep, happ, urlLookup_urlUpdate]
  refine ⟨⟨hstep, hurl⟩, ?_, ?_⟩
  · intro hsmall
    rw [hstep]
    have : max (task.selfTime * cpuMultiplier - 50) 0 = 0 :=
      max_eq_right (by linarith)
    rw [this, add_zero]
  · intro networkRecords mainThreadTasks
    exact getSummaries_nonneg ctx networkRecords mainThreadTasks cpuMultiplier
      mainEntity

/-- Witness for C10: a 100 millisecond YouTube-embed task under a four-fold
CPU slowdown contributes 350 milliseconds of blocking time. -/
theorem getSummaries_blockingTime_witness :
    facadeApplicable
        ⟨fun _ => some ⟨"YouTube"⟩, fun _ => some ⟨"YouTube embed"⟩,
          fun _ => "https://youtube.com/embed.js"⟩ none
        (ThirdPartyWebCtx.attributableURL
          ⟨fun _ => some ⟨"YouTube"⟩, fun _ => some ⟨"YouTube embed"⟩,
            fun _ => "https://youtube.com/embed.js"⟩ ⟨100⟩) =
      some ⟨"YouTube embed"⟩ ∧
      (taskStep
          ⟨fun _ => some ⟨"YouTube"⟩, fun _ => some ⟨"YouTube embed"⟩,
            fun _ => "https://youtube.com/embed.js"⟩ none 4
          ⟨defaultStat, [], []⟩ ⟨100⟩).sharedSummary.blockingTime =
        (⟨defaultStat, [], []⟩ : SummariesState).sharedSummary.blockingTime +
          max ((100 : ℚ) * 4 - 50) 0 := by
  have happ : facadeApplicable
      ⟨fun _ => some ⟨"YouTube"⟩, fun _ => some ⟨"YouTube embed"⟩,
        fun _ => "https://youtube.com/embed.js"⟩ none
      (ThirdPartyWebCtx.attributableURL
        ⟨fun _ => some ⟨"YouTube"⟩, fun _ => some ⟨"YouTube embed"⟩,
          fun _ => "https://youtube.com/embed.js"⟩ ⟨100⟩) =
      some ⟨"YouTube embed"⟩ := rfl
  exact ⟨happ,
    ((getSummaries_blockingTime
      ⟨fun _ => some ⟨"YouTube"⟩, fun _ => some ⟨"YouTube embed"⟩,
        fun _ => "https://youtube.com/embed.js"⟩ none 4
      ⟨defaultStat, [], []⟩ ⟨100⟩ ⟨"YouTube embed"⟩ happ).1).1⟩

end LazyThirdParty

end Lantern
